import Mathlib

/-!
Verification of the `aya` BPF loader core (`src/aya/src/bpf.rs`) against its
natural-language specification.

The source file is embedded shallowly: the `Bpf::load` pipeline becomes a Lean
function over an environment of external collaborators (parser result, BTF
relocator, kernel map layer, CPU enumeration, relocation resolvers), each
modelled as an `Except`-returning function supplied as data.  Kernel-facing
side effects (map creation syscalls, element updates, relocation passes) are
recorded in an explicit event trace so that ordering and counting claims can be
stated.  Machine integers (`u32` fields of `bpf_map_def`, file descriptors)
are modelled as `Nat`; none of the verified claims depend on wrap-around.
-/

namespace Aya

/-- Byte sequences (map initial data, instruction streams) as lists of bytes. -/
abbrev Bytes := List Nat

/-- Modelled from the spec: an opaque I/O error, as produced by file reads and
CPU enumeration (`io::Error` is external to the repository). -/
structure IoError where
  code : Nat
deriving DecidableEq, Repr

/-- Modelled from the spec: an opaque parse error (`obj::ParseError` is
external; the parser is an external collaborator). -/
structure ParseError where
  code : Nat
deriving DecidableEq, Repr

/-- Modelled from the spec: an opaque BTF (type-format) error
(`obj::btf::BtfError` is external). -/
structure BtfError where
  code : Nat
deriving DecidableEq, Repr

/-- Modelled from the spec: an opaque BTF type-format context
(`obj::btf::Btf` is external); only its presence matters to the pipeline. -/
structure Btf where
  id : Nat
deriving DecidableEq, Repr

/-- Modelled from the spec: the map-level error type (`maps::MapError` is
external to the repository).  The constructors used by `bpf.rs` are
`UpdateElementError { code, io_error }` (raw element-update failure, line 97)
and `BorrowError { name }` (borrow contention, lines 163 and 180); kernel map
creation failures and typed-view mismatches are further constructors per the
spec's error taxonomy. -/
inductive MapError where
  | CreateError (code : Nat)
  | UpdateElementError (code : Nat) (io_error : IoError)
  | BorrowError (name : String)
  | InvalidMapType
deriving DecidableEq, Repr

/-- Modelled from the spec: the program-level error type
(`programs::ProgramError` is external).  Per the spec's error taxonomy it
covers kind-mismatch on lookup and downstream attach/detach failures; it has
no borrow-contention constructor. -/
inductive ProgramError where
  | KindMismatch
  | AttachError (code : Nat)
deriving DecidableEq, Repr

/-- `bpf_map_def` from `bpf.rs` lines 48-54: the kernel-facing map definition.
All fields are `u32` in the source; modelled as `Nat`. -/
structure bpf_map_def where
  map_type : Nat
  key_size : Nat
  value_size : Nat
  max_entries : Nat
  map_flags : Nat
deriving DecidableEq, Repr

/-- `BPF_MAP_TYPE_PERF_EVENT_ARRAY` (from the generated kernel bindings,
external to the repository): the kernel ABI value of the perf-event-array map
kind.  Its concrete value is irrelevant to the claims; only equality with
`bpf_map_def.map_type` is ever tested. -/
def BPF_MAP_TYPE_PERF_EVENT_ARRAY : Nat := 4

/-- `POSSIBLE_CPUS` (from `util.rs`, external): the well-known pseudo-file
path from which CPU ids are enumerated, used to annotate enumeration
failures. -/
def POSSIBLE_CPUS : String := "/sys/devices/system/cpu/possible"

/-- Modelled from the spec: a parsed map object (`obj::Map` is external).
Per the spec's Map Record: a definition, a name, and possibly-empty initial
data.  `bpf.rs` reads exactly the fields `def`, `name` and `data`
(`def` is a Lean keyword, rendered `definition`). -/
structure ObjMap where
  definition : bpf_map_def
  name : String
  data : Bytes
deriving DecidableEq, Repr

/-- `Map` from the `maps` module as constructed in `bpf.rs` line 93:
the parsed object plus an optional kernel file descriptor, `None` until
creation succeeds. -/
structure Map where
  obj : ObjMap
  fd : Option Nat
deriving DecidableEq, Repr

/-- `obj::ProgramKind` (external parser classification), whose seven variants
are exhaustively matched in `bpf.rs` lines 116-138. -/
inductive ProgramKind where
  | KProbe
  | KRetProbe
  | UProbe
  | URetProbe
  | TracePoint
  | SocketFilter
  | Xdp
deriving DecidableEq, Repr

/-- Modelled from the spec: a parsed program section (`obj::Program` is
external): a kind classification fixed at parse time plus the raw instruction
stream. -/
structure ObjProgram where
  kind : ProgramKind
  insns : Bytes
deriving DecidableEq, Repr

/-- Modelled from the spec: the parsed object (`obj::Object` is external):
name-keyed maps and programs, as drained by `Bpf::load`.  The hash maps are
modelled as association lists; `load` ignores the key of each map entry
(line 82 binds it `_`) and uses the key of each program entry (line 108). -/
structure Object where
  maps : List (String × ObjMap)
  programs : List (String × ObjProgram)
deriving DecidableEq, Repr

/-- `probe::ProbeKind` (external): the probe-flavor tag distinguishing entry
from return probes, for kernel and user probes alike (`bpf.rs` lines
117-132). -/
inductive ProbeKind where
  | KProbe
  | KRetProbe
  | UProbe
  | URetProbe
deriving DecidableEq, Repr

/-- `ProgramData` as built in `bpf.rs` lines 110-115: the parsed program, its
name, an uninitialized kernel handle and an empty attachment-link list.
Links are opaque handles, modelled as `Nat`. -/
structure ProgramData where
  obj : ObjProgram
  name : String
  fd : Option Nat
  links : List Nat
deriving DecidableEq, Repr

/-- `programs::KProbe`: program data plus the probe-flavor tag (covers both
entry and return kernel probes). -/
structure KProbe where
  data : ProgramData
  kind : ProbeKind
deriving DecidableEq, Repr

/-- `programs::UProbe`: program data plus the probe-flavor tag (covers both
entry and return user-space probes). -/
structure UProbe where
  data : ProgramData
  kind : ProbeKind
deriving DecidableEq, Repr

/-- `programs::TracePoint`. -/
structure TracePoint where
  data : ProgramData
deriving DecidableEq, Repr

/-- `programs::SocketFilter`. -/
structure SocketFilter where
  data : ProgramData
deriving DecidableEq, Repr

/-- `programs::Xdp`. -/
structure Xdp where
  data : ProgramData
deriving DecidableEq, Repr

/-- `programs::Program`: the closed kind-tagged union of program wrappers
constructed in `bpf.rs` lines 116-138. -/
inductive Program where
  | KProbe (p : KProbe)
  | UProbe (p : UProbe)
  | TracePoint (p : TracePoint)
  | SocketFilter (p : SocketFilter)
  | Xdp (p : Xdp)
deriving DecidableEq, Repr

/-- The program data carried by any `Program` variant. -/
def Program.data : Program → ProgramData
  | .KProbe p => p.data
  | .UProbe p => p.data
  | .TracePoint p => p.data
  | .SocketFilter p => p.data
  | .Xdp p => p.data

/-- `BpfError` from `bpf.rs` lines 220-246 (payloads of external error types
carried structurally; the boxed cause of `RelocationError` is dropped). -/
inductive BpfError where
  | FileError (path : String) (error : IoError)
  | ParseError (e : ParseError)
  | BtfError (e : BtfError)
  | RelocationError (function : String)
  | MapError (e : MapError)
  | ProgramError (e : ProgramError)
deriving DecidableEq, Repr

/-- Modelled from the spec: the per-map runtime-checked reader/writer lock
(`maps::MapLock` is external to the repository).  Per the spec's design note,
an explicit reader/writer state machine: counts of outstanding shared holders
and an exclusive flag over the owned `Map`. -/
structure MapLock where
  map : Map
  readers : Nat
  writer : Bool
deriving DecidableEq, Repr

/-- `MapLock::new` (external, called at `bpf.rs` line 147): a fresh lock with
no outstanding views. -/
def MapLock.new (m : Map) : MapLock :=
  { map := m, readers := 0, writer := false }

/-- Modelled from the spec: a shared (read) view over the locked map. -/
structure MapRef where
  map : Map
deriving DecidableEq, Repr

/-- Modelled from the spec: an exclusive (write) view over the locked map. -/
structure MapRefMut where
  map : Map
deriving DecidableEq, Repr

/-- Modelled from the spec: `try_read` succeeds if no exclusive view is
outstanding, yielding a shared view and the lock with one more shared holder;
fails (with an unnamed lock error, translated to a named borrow error by the
caller in `bpf.rs`) otherwise. -/
def MapLock.try_read (l : MapLock) : Option (MapLock × MapRef) :=
  if l.writer then none
  else some ({ l with readers := l.readers + 1 }, { map := l.map })

/-- Modelled from the spec: `try_write` succeeds only if no shared or
exclusive view is outstanding, yielding an exclusive view and the lock with
the exclusive flag set; fails otherwise. -/
def MapLock.try_write (l : MapLock) : Option (MapLock × MapRefMut) :=
  if l.writer ∨ 0 < l.readers then none
  else some ({ l with writer := true }, { map := l.map })

/-- Modelled from the spec: releasing a shared view decrements the
outstanding-shared count exactly once. -/
def MapLock.release_read (l : MapLock) : MapLock :=
  { l with readers := l.readers - 1 }

/-- Modelled from the spec: releasing an exclusive view clears the exclusive
flag. -/
def MapLock.release_write (l : MapLock) : MapLock :=
  { l with writer := false }

/-- Kernel-facing effects of the load pipeline, recorded as an explicit trace:
map-creation syscalls, raw element updates, and the two relocation passes. -/
inductive Event where
  | createMap (name : String) (d : bpf_map_def)
  | updateElem (name : String) (key : Nat) (data : Bytes)
  | relocateMaps
  | relocateCalls
deriving DecidableEq, Repr

/-- Does an event record a raw element update? -/
def Event.isUpdate : Event → Bool
  | .updateElem _ _ _ => true
  | _ => false

/-- Does an event record a kernel map creation? -/
def Event.isCreate : Event → Bool
  | .createMap _ _ => true
  | _ => false

/-- The external collaborators consumed by `Bpf::load`, per the spec's §6:
CPU enumeration, the kernel map layer (`Map::create` and
`bpf_map_update_elem_ptr`), the BTF relocator, and the two relocation
resolvers.  Each is supplied as data so the pipeline itself is the only code
under verification. -/
structure Env where
  possible_cpus : Except IoError (List Nat)
  create : ObjMap → Except MapError Nat
  bpf_map_update_elem_ptr : Nat → Nat → Bytes → Nat → Except (Nat × IoError) Unit
  relocate_btf : Object → Btf → Except BtfError Object
  relocate_maps : Object → List Map → Except BpfError Object
  relocate_calls : Object → Except BpfError Object

/-- The max-entries resolution of `bpf.rs` lines 83-92: a perf-event-array
map with declared `max_entries` zero gets the last entry of the host's
CPU-id list (0 when the list is empty); a CPU-enumeration failure is wrapped
as a file error carrying the `POSSIBLE_CPUS` path.  All other maps pass
through unchanged. -/
def resolveMaxEntries (cpus : Except IoError (List Nat)) (m : ObjMap) :
    Except BpfError ObjMap :=
  if m.definition.map_type = BPF_MAP_TYPE_PERF_EVENT_ARRAY ∧
      m.definition.max_entries = 0 then
    match cpus with
    | .error e => .error (BpfError.FileError POSSIBLE_CPUS e)
    | .ok l =>
        .ok { m with definition := { m.definition with max_entries := l.getLast?.getD 0 } }
  else
    .ok m

/-- The per-map body of the loop at `bpf.rs` lines 82-100: resolve
max-entries, create the kernel map, and, when the initial data is non-empty
and the name is not `".bss"`, write the data into element zero via a single
raw update call, surfacing any failure as a map error. -/
def processMap (env : Env) (m0 : ObjMap) : Except BpfError (Map × List Event) :=
  match resolveMaxEntries env.possible_cpus m0 with
  | .error e => .error e
  | .ok m =>
    match env.create m with
    | .error e => .error (BpfError.MapError e)
    | .ok fd =>
        if m.data ≠ [] ∧ m.name ≠ ".bss" then
          match env.bpf_map_update_elem_ptr fd 0 m.data 0 with
          | .error (code, io_error) =>
              .error (BpfError.MapError (MapError.UpdateElementError code io_error))
          | .ok _ =>
              .ok ({ obj := m, fd := some fd },
                   [Event.createMap m.name m.definition, Event.updateElem m.name 0 m.data])
        else
          .ok ({ obj := m, fd := some fd }, [Event.createMap m.name m.definition])

/-- The whole map-creation loop of `bpf.rs` lines 81-100, accumulating the
created maps in drain order together with the emitted events. -/
def processMaps (env : Env) : List (String × ObjMap) → Except BpfError (List Map × List Event)
  | [] => .ok ([], [])
  | (_, m) :: rest =>
    match processMap env m with
    | .error e => .error e
    | .ok (mp, ev) =>
      match processMaps env rest with
      | .error e => .error e
      | .ok (ms, evs) => .ok (mp :: ms, ev ++ evs)

/-- The program materialization of `bpf.rs` lines 108-141: wrap the parsed
program, keyed by its name, with an uninitialized kernel handle and an empty
attachment-link list into the kind-tagged variant; the entry/return
distinction of the two probe families lives only in the `ProbeKind` tag. -/
def materializeProgram (name : String) (obj : ObjProgram) : Program :=
  let data : ProgramData := { obj := obj, name := name, fd := none, links := [] }
  match obj.kind with
  | .KProbe => Program.KProbe { data := data, kind := ProbeKind.KProbe }
  | .KRetProbe => Program.KProbe { data := data, kind := ProbeKind.KRetProbe }
  | .UProbe => Program.UProbe { data := data, kind := ProbeKind.UProbe }
  | .URetProbe => Program.UProbe { data := data, kind := ProbeKind.URetProbe }
  | .TracePoint => Program.TracePoint { data := data }
  | .SocketFilter => Program.SocketFilter { data := data }
  | .Xdp => Program.Xdp { data := data }

/-- `Bpf` from `bpf.rs` lines 56-60: name-keyed locked maps and programs
(hash maps modelled as association lists in construction order). -/
structure Bpf where
  maps : List (String × MapLock)
  programs : List (String × Program)
deriving DecidableEq, Repr

/-- Association-list lookup standing in for `HashMap::get`. -/
def assocFind {β : Type} (l : List (String × β)) (k : String) : Option β :=
  (l.find? (fun p => p.1 = k)).map Prod.snd

/-- The optional BTF-relocation stage of `bpf.rs` lines 77-79: when a target
type-format context is supplied, rewrite the object against it, surfacing any
failure as a BTF error. -/
def btfStage (env : Env) (target_btf : Option Btf) (obj : Object) :
    Except BpfError Object :=
  match target_btf with
  | none => .ok obj
  | some btf =>
    match env.relocate_btf obj btf with
    | .error e => .error (BpfError.BtfError e)
    | .ok o => .ok o

/-- The assembly of `bpf.rs` lines 105-150: wrap every created map in a fresh
lock keyed by its name, materialize every program keyed by its name. -/
def assemble (maps : List Map) (obj : Object) : Bpf :=
  { maps := maps.map (fun mp => (mp.obj.name, MapLock.new mp)),
    programs := obj.programs.map (fun p => (p.1, materializeProgram p.1 p.2)) }

/-- `Bpf::load` (`bpf.rs` lines 74-151) over the external collaborators:
parse (its result supplied, the parser being external), optional BTF
relocation, map creation/initialization, map-reference relocation, call
relocation, program materialization, assembly of the `Bpf` value.  The
returned trace records the kernel-facing effects in order. -/
def load (env : Env) (parsed : Except ParseError Object) (target_btf : Option Btf) :
    Except BpfError (Bpf × List Event) :=
  match parsed with
  | .error e => .error (BpfError.ParseError e)
  | .ok obj0 =>
    match btfStage env target_btf obj0 with
    | .error e => .error e
    | .ok obj1 =>
      match processMaps env obj1.maps with
      | .error e => .error e
      | .ok (maps, evs) =>
        match env.relocate_maps obj1 maps with
        | .error e => .error e
        | .ok obj2 =>
          match env.relocate_calls obj2 with
          | .error e => .error e
          | .ok obj3 =>
            .ok (assemble maps obj3, evs ++ [Event.relocateMaps, Event.relocateCalls])

/-- `Bpf::map` (`bpf.rs` lines 153-168): look the name up; absent names yield
`Ok(None)`; a failed `try_read` yields the named borrow error (injected into
the caller's error type `E` via the `From<MapError>` bound, modelled by
`fromME`); otherwise the fallible typed conversion runs on the shared view. -/
def Bpf.map {T E : Type} (fromME : MapError → E) (conv : MapRef → Except E T)
    (b : Bpf) (name : String) : Except E (Option T) :=
  match assocFind b.maps name with
  | none => .ok none
  | some lock =>
      match lock.try_read with
      | none => .error (fromME (MapError.BorrowError name))
      | some (_, r) => (conv r).map some

/-- `Bpf::map_mut` (`bpf.rs` lines 170-185): as `Bpf.map` but acquiring the
exclusive view via `try_write`. -/
def Bpf.map_mut {T E : Type} (fromME : MapError → E) (conv : MapRefMut → Except E T)
    (b : Bpf) (name : String) : Except E (Option T) :=
  match assocFind b.maps name with
  | none => .ok none
  | some lock =>
      match lock.try_write with
      | none => .error (fromME (MapError.BorrowError name))
      | some (_, r) => (conv r).map some

/-- `Bpf::program` (`bpf.rs` lines 198-203): look the name up; absent names
yield `Ok(None)`; present names run the fallible kind conversion directly on
the stored program — no lock is involved. -/
def Bpf.program {T E : Type} (conv : Program → Except E T)
    (b : Bpf) (name : String) : Except E (Option T) :=
  match assocFind b.programs name with
  | none => .ok none
  | some p => (conv p).map some

/-- `Bpf::program_mut` (`bpf.rs` lines 205-213): identical body to
`Bpf::program` up to the mutability of the borrowed program; mutable access
is gated statically by the `&mut self` receiver, not by any runtime lock. -/
def Bpf.program_mut {T E : Type} (conv : Program → Except E T)
    (b : Bpf) (name : String) : Except E (Option T) :=
  match assocFind b.programs name with
  | none => .ok none
  | some p => (conv p).map some

/-! ### Fixtures used by witness theorems -/

/-- A concrete created map used by witnesses. -/
def mapW : Map :=
  { obj := { definition := ⟨2, 4, 4, 8, 0⟩, name := "m", data := [] }, fd := some 7 }

/-- A lock with an outstanding exclusive view. -/
def lockBusyW : MapLock := { map := mapW, readers := 0, writer := true }

/-- A lock with one outstanding shared view. -/
def lockSharedW : MapLock := { map := mapW, readers := 1, writer := false }

/-- A concrete loaded object used by witnesses: one map under an exclusive
view, one map under a shared view, one program. -/
def bpfW : Bpf :=
  { maps := [("m", lockBusyW), ("s", lockSharedW)],
    programs := [("p", materializeProgram "p" { kind := ProgramKind.Xdp, insns := [] })] }

/-- A benign concrete environment: four CPUs, creation always yields fd 5,
element updates succeed, relocation passes are identities. -/
def envW : Env :=
  { possible_cpus := .ok [0, 1, 2, 3],
    create := fun _ => .ok 5,
    bpf_map_update_elem_ptr := fun _ _ _ _ => .ok (),
    relocate_btf := fun o _ => .ok o,
    relocate_maps := fun o _ => .ok o,
    relocate_calls := fun o => .ok o }

/-- A perf-event-array map definition with declared max-entries zero. -/
def perfMapW : ObjMap :=
  { definition := { map_type := BPF_MAP_TYPE_PERF_EVENT_ARRAY, key_size := 4,
                    value_size := 4, max_entries := 0, map_flags := 0 },
    name := "events", data := [] }

/-- The created form of `perfMapW` under `envW`: max-entries resolved to the
last CPU id, fd 5. -/
def perfMapCreatedW : Map :=
  { obj := { definition := { map_type := BPF_MAP_TYPE_PERF_EVENT_ARRAY, key_size := 4,
                             value_size := 4, max_entries := 3, map_flags := 0 },
             name := "events", data := [] },
    fd := some 5 }

/-- A hash map (kind 1) with declared max-entries zero and non-empty initial
data. -/
def hashMapW : ObjMap :=
  { definition := { map_type := 1, key_size := 4, value_size := 8,
                    max_entries := 0, map_flags := 0 },
    name := "config", data := [10, 20] }

/-- A `.bss` bookkeeping section map with non-empty initial data. -/
def bssMapW : ObjMap :=
  { definition := { map_type := 2, key_size := 4, value_size := 4,
                    max_entries := 1, map_flags := 0 },
    name := ".bss", data := [0, 0, 0] }

/-- A parsed kernel-probe program section. -/
def progW : ObjProgram := { kind := ProgramKind.KProbe, insns := [] }

/-- A parsed object with one map and one program. -/
def objW : Object :=
  { maps := [("events", perfMapW)], programs := [("prog", progW)] }

/-- The loaded object produced by `load envW (.ok objW) none`. -/
def bpfLoadedW : Bpf :=
  { maps := [("events", MapLock.new perfMapCreatedW)],
    programs := [("prog", Program.KProbe
      { data := { obj := progW, name := "prog", fd := none, links := [] },
        kind := ProbeKind.KProbe })] }

/-- The event trace produced by `load envW (.ok objW) none`. -/
def loadTraceW : List Event :=
  [Event.createMap "events" perfMapCreatedW.obj.definition,
   Event.relocateMaps, Event.relocateCalls]

/-! ### Claim theorems -/

/-- C1: acquiring an exclusive view fails exactly while any shared or
exclusive view is outstanding (and succeeds once all are released); acquiring
a shared view fails exactly while an exclusive view is outstanding; through
`Bpf::map` / `Bpf::map_mut` either failure surfaces as a borrow error
carrying the map's name; releasing decrements the outstanding state exactly
once. -/
theorem borrow_discipline {T T' E : Type} (fromME : MapError → E)
    (convW : MapRefMut → Except E T) (convR : MapRef → Except E T')
    (b : Bpf) (name : String) (l : MapLock) :
    (l.try_write = none ↔ (l.writer = true ∨ 0 < l.readers)) ∧
    (l.writer = false → l.readers = 0 →
      l.try_write = some ({ l with writer := true }, { map := l.map })) ∧
    (l.try_read = none ↔ l.writer = true) ∧
    (l.writer = false →
      l.try_read = some ({ l with readers := l.readers + 1 }, { map := l.map })) ∧
    (l.release_read.readers = l.readers - 1) ∧
    (l.release_write.writer = false) ∧
    (assocFind b.maps name = some l → l.try_write = none →
      Bpf.map_mut fromME convW b name = .error (fromME (MapError.BorrowError name))) ∧
    (assocFind b.maps name = some l → l.try_read = none →
      Bpf.map fromME convR b name = .error (fromME (MapError.BorrowError name))) := by
  refine ⟨?_, ?_, ?_, ?_, rfl, rfl, ?_, ?_⟩
  · unfold MapLock.try_write
    split
    · simp_all
    · simp_all
  · intro hw hr
    unfold MapLock.try_write
    simp [hw, hr]
  · unfold MapLock.try_read
    split
    · simp_all
    · simp_all
  · intro hw
    unfold MapLock.try_read
    simp [hw]
  · intro hfind hw
    simp only [Bpf.map_mut, hfind, hw]
  · intro hfind hr
    simp only [Bpf.map, hfind, hr]

/-- C1 witness: on the concrete loaded object, exclusive acquisition on the
shared-held map and shared acquisition on the exclusively-held map both fail
with the named borrow error. -/
theorem borrow_discipline_witness :
    Bpf.map_mut (T := Unit) (E := MapError) id (fun _ => .ok ()) bpfW "s"
      = .error (MapError.BorrowError "s") ∧
    Bpf.map (T := Unit) (E := MapError) id (fun _ => .ok ()) bpfW "m"
      = .error (MapError.BorrowError "m") :=
  ⟨(borrow_discipline id (fun _ => .ok ()) (fun _ => .ok ()) bpfW "s"
      lockSharedW).2.2.2.2.2.2.1 (by decide) (by decide),
   (borrow_discipline id (fun _ => .ok ()) (fun _ => .ok ()) bpfW "m"
      lockBusyW).2.2.2.2.2.2.2 (by decide) (by decide)⟩

/-- C7: looking up an absent map or program name returns `Ok(None)`; an error
outcome can only arise for a present name; `Ok(None)` is distinguishable from
any error. -/
theorem lookup_absent_ok_none {T U E F : Type} (fromME : MapError → E)
    (convR : MapRef → Except E T) (pconv : Program → Except F U)
    (b : Bpf) (name : String) :
    (assocFind b.maps name = none → Bpf.map fromME convR b name = .ok none) ∧
    (assocFind b.programs name = none → Bpf.program pconv b name = .ok none) ∧
    (∀ e : E, Bpf.map fromME convR b name = .error e →
      (assocFind b.maps name).isSome) ∧
    (∀ e : F, Bpf.program pconv b name = .error e →
      (assocFind b.programs name).isSome) ∧
    (∀ e : E, (Except.ok none : Except E (Option T)) ≠ .error e) := by
  refine ⟨?_, ?_, ?_, ?_, ?_⟩
  · intro h
    simp only [Bpf.map, h]
  · intro h
    simp only [Bpf.program, h]
  · intro e he
    cases h : assocFind b.maps name with
    | none =>
        simp only [Bpf.map, h] at he
        exact Except.noConfusion he
    | some l => simp [h]
  · intro e he
    cases h : assocFind b.programs name with
    | none =>
        simp only [Bpf.program, h] at he
        exact Except.noConfusion he
    | some p => simp [h]
  · intro e
    simp

/-- C7 witness: on the concrete loaded object, an absent name yields
`Ok(None)` for both map and program lookup. -/
theorem lookup_absent_ok_none_witness :
    Bpf.map (T := Unit) (E := MapError) id (fun _ => .ok ()) bpfW "nope" = .ok none ∧
    Bpf.program (T := Unit) (E := ProgramError) (fun _ => .ok ()) bpfW "nope" = .ok none :=
  ⟨(lookup_absent_ok_none (U := Unit) (F := ProgramError) id (fun _ => .ok ())
      (fun _ => .ok ()) bpfW "nope").1 (by decide),
   (lookup_absent_ok_none (T := Unit) (E := MapError) (F := ProgramError) id
      (fun _ => .ok ()) (fun _ => .ok ()) bpfW "nope").2.1 (by decide)⟩

/-- C10: program lookup is never subject to runtime borrow contention:
`Bpf::program` returns `Ok(None)` exactly on absent names; any error outcome
is literally the fallible kind conversion's error on the stored program;
`program_mut` computes the same outcomes as `program` (mutable access being
gated statically by the receiver); map access, by contrast, goes through the
runtime lock and surfaces a borrow error when the lock is held. -/
theorem program_lookup_no_borrow {T E : Type} (conv : Program → Except E T)
    (fromME : MapError → E) (mconv : MapRef → Except E T)
    (b : Bpf) (name : String) :
    (Bpf.program conv b name = .ok none ↔ assocFind b.programs name = none) ∧
    (∀ e, Bpf.program conv b name = .error e →
      ∃ p, assocFind b.programs name = some p ∧ conv p = .error e) ∧
    (∀ t, Bpf.program conv b name = .ok (some t) →
      ∃ p, assocFind b.programs name = some p ∧ conv p = .ok t) ∧
    (Bpf.program_mut conv b name = Bpf.program conv b name) ∧
    (∀ l : MapLock, assocFind b.maps name = some l → l.writer = true →
      Bpf.map fromME mconv b name = .error (fromME (MapError.BorrowError name))) := by
  refine ⟨?_, ?_, ?_, rfl, ?_⟩
  · cases h : assocFind b.programs name with
    | none => simp [Bpf.program, h]
    | some p =>
        cases hc : conv p with
        | error e => simp [Bpf.program, h, hc, Except.map]
        | ok t => simp [Bpf.program, h, hc, Except.map]
  · intro e he
    cases h : assocFind b.programs name with
    | none =>
        simp only [Bpf.program, h] at he
        exact Except.noConfusion he
    | some p =>
        refine ⟨p, rfl, ?_⟩
        cases hc : conv p with
        | error e2 =>
            simp only [Bpf.program, h, hc, Except.map] at he
            cases he
            rfl
        | ok t =>
            simp only [Bpf.program, h, hc, Except.map] at he
            exact Except.noConfusion he
  · intro t ht
    cases h : assocFind b.programs name with
    | none =>
        simp only [Bpf.program, h] at ht
        exact Option.noConfusion (Except.ok.inj ht)
    | some p =>
        refine ⟨p, rfl, ?_⟩
        cases hc : conv p with
        | error e2 =>
            simp only [Bpf.program, h, hc, Except.map] at ht
            exact Except.noConfusion ht
        | ok t2 =>
            simp only [Bpf.program, h, hc, Except.map, Except.ok.injEq,
              Option.some.injEq] at ht
            rw [ht]
  · intro l hfind hw
    simp [Bpf.map, hfind, MapLock.try_read, hw]

/-- C10 witness: on the concrete loaded object, program lookup of an absent
name yields `Ok(None)`, and map lookup of the exclusively-held map surfaces a
borrow error. -/
theorem program_lookup_no_borrow_witness :
    Bpf.program (T := Unit) (E := MapError) (fun _ => .ok ()) bpfW "nope" = .ok none ∧
    Bpf.map (T := Unit) (E := MapError) id (fun _ => .ok ()) bpfW "m"
      = .error (MapError.BorrowError "m") :=
  ⟨(program_lookup_no_borrow (fun _ => .ok ()) id (fun _ => .ok ())
      bpfW "nope").1.mpr (by decide),
   (program_lookup_no_borrow (T := Unit) (fun _ => .ok ()) id (fun _ => .ok ())
      bpfW "m").2.2.2.2 lockBusyW (by decide) (by decide)⟩

/-! ### Structural lemmas about the map-creation loop -/

/-- Max-entries resolution on a perf-event-array map with declared
max-entries zero, when CPU enumeration succeeds. -/
theorem resolveMaxEntries_perf_zero {c : Except IoError (List Nat)}
    {cpus : List Nat} {m : ObjMap}
    (hperf : m.definition.map_type = BPF_MAP_TYPE_PERF_EVENT_ARRAY)
    (hz : m.definition.max_entries = 0) (hc : c = .ok cpus) :
    resolveMaxEntries c m =
      .ok { m with definition := { m.definition with max_entries := cpus.getLast?.getD 0 } } := by
  simp [resolveMaxEntries, hperf, hz, hc]

/-- Max-entries resolution is the identity on every other map. -/
theorem resolveMaxEntries_other {c : Except IoError (List Nat)} {m : ObjMap}
    (h : ¬(m.definition.map_type = BPF_MAP_TYPE_PERF_EVENT_ARRAY ∧
           m.definition.max_entries = 0)) :
    resolveMaxEntries c m = .ok m := by
  simp only [resolveMaxEntries, if_neg h]

/-- Max-entries resolution never touches the map's name or data. -/
theorem resolveMaxEntries_preserves {c : Except IoError (List Nat)}
    {m m1 : ObjMap} (h : resolveMaxEntries c m = .ok m1) :
    m1.name = m.name ∧ m1.data = m.data := by
  unfold resolveMaxEntries at h
  split at h
  · cases c with
    | error e => exact Except.noConfusion h
    | ok l =>
        simp only [Except.ok.injEq] at h
        rw [← h]
        exact ⟨rfl, rfl⟩
  · simp only [Except.ok.injEq] at h
    rw [← h]
    exact ⟨rfl, rfl⟩

/-- Successful per-map processing decomposes into a successful resolution, a
successful creation, and the emitted events: one creation event followed by
exactly the conditional element-update event. -/
theorem processMap_ok {env : Env} {m0 : ObjMap} {mp : Map} {evs : List Event}
    (h : processMap env m0 = .ok (mp, evs)) :
    ∃ m1 fd, resolveMaxEntries env.possible_cpus m0 = .ok m1 ∧
      env.create m1 = .ok fd ∧ mp = { obj := m1, fd := some fd } ∧
      evs = Event.createMap m1.name m1.definition ::
        (if m1.data ≠ [] ∧ m1.name ≠ ".bss"
         then [Event.updateElem m1.name 0 m1.data] else []) := by
  cases hr : resolveMaxEntries env.possible_cpus m0 with
  | error e =>
      simp only [processMap, hr] at h
      exact Except.noConfusion h
  | ok m1 =>
    cases hc : env.create m1 with
    | error e =>
        simp only [processMap, hr, hc] at h
        exact Except.noConfusion h
    | ok fd =>
      refine ⟨m1, fd, rfl, hc, ?_⟩
      by_cases hcond : m1.data ≠ [] ∧ m1.name ≠ ".bss"
      · cases hu : env.bpf_map_update_elem_ptr fd 0 m1.data 0 with
        | error pe =>
            obtain ⟨code, io⟩ := pe
            simp only [processMap, hr, hc, if_pos hcond, hu] at h
            exact Except.noConfusion h
        | ok u =>
            simp only [processMap, hr, hc, if_pos hcond, hu, Except.ok.injEq,
              Prod.mk.injEq] at h
            rw [if_pos hcond, ← h.1, ← h.2]
            exact ⟨rfl, rfl⟩
      · simp only [processMap, hr, hc, if_neg hcond, Except.ok.injEq,
          Prod.mk.injEq] at h
        rw [if_neg hcond, ← h.1, ← h.2]
        exact ⟨rfl, rfl⟩

/-- Every map entry of a successfully processed list was itself processed
successfully. -/
theorem processMaps_ok_mem {env : Env} :
    ∀ {l : List (String × ObjMap)} {ms : List Map} {evs : List Event},
      processMaps env l = .ok (ms, evs) →
      ∀ p ∈ l, ∃ r, processMap env p.2 = .ok r
  | [], _, _, _, p, hp => absurd hp (List.not_mem_nil p)
  | (k, m) :: rest, ms, evs, h, p, hp => by
      cases hm : processMap env m with
      | error e =>
          simp only [processMaps, hm] at h
          exact Except.noConfusion h
      | ok r =>
        obtain ⟨mp, ev⟩ := r
        cases hrest : processMaps env rest with
        | error e =>
            simp only [processMaps, hm, hrest] at h
            exact Except.noConfusion h
        | ok r2 =>
          rcases List.mem_cons.mp hp with hp1 | hp2
          · exact ⟨(mp, ev), by rw [hp1]; exact hm⟩
          · obtain ⟨ms2, evs2⟩ := r2
            exact processMaps_ok_mem hrest p hp2

/-- C2: a perf-event-array map with declared max-entries zero has its
effective max-entries (both in the created map and in the kernel-creation
event) set to the last element of the host's CPU-id list, and to 0 when that
list is empty. -/
theorem perf_zero_resolution (env : Env) (m : ObjMap) (cpus : List Nat)
    (mp : Map) (evs : List Event)
    (hperf : m.definition.map_type = BPF_MAP_TYPE_PERF_EVENT_ARRAY)
    (hz : m.definition.max_entries = 0)
    (hc : env.possible_cpus = .ok cpus)
    (hok : processMap env m = .ok (mp, evs)) :
    mp.obj.definition.max_entries = cpus.getLast?.getD 0 ∧
    (∀ pre x, cpus = pre ++ [x] → mp.obj.definition.max_entries = x) ∧
    (cpus = [] → mp.obj.definition.max_entries = 0) ∧
    Event.createMap m.name mp.obj.definition ∈ evs := by
  obtain ⟨m1, fd, hr, hcr, hmp, hevs⟩ := processMap_ok hok
  rw [resolveMaxEntries_perf_zero hperf hz hc] at hr
  replace hr := (Except.ok.inj hr).symm
  have hname : m1.name = m.name := by rw [hr]
  have hdef : m1.definition.max_entries = cpus.getLast?.getD 0 := by rw [hr]
  have hmpdef : mp.obj.definition = m1.definition := by rw [hmp]
  constructor
  · rw [hmpdef, hdef]
  refine ⟨?_, ?_, ?_⟩
  · intro pre x hx
    rw [hmpdef, hdef, hx]
    simp
  · intro hnil
    rw [hmpdef, hdef, hnil]
    rfl
  · rw [hevs, hmpdef, ← hname]
    exact List.mem_cons_self _ _

/-- C2 witness: under the four-CPU environment, the zero-entries perf map is
created with max-entries 3, the last CPU id. -/
theorem perf_zero_resolution_witness :
    perfMapCreatedW.obj.definition.max_entries =
      (([0, 1, 2, 3] : List Nat).getLast?).getD 0 :=
  (perf_zero_resolution envW perfMapW [0, 1, 2, 3] perfMapCreatedW
    [Event.createMap "events" perfMapCreatedW.obj.definition]
    rfl rfl rfl rfl).1

/-- C8: every map that is not a perf-event-array with declared max-entries
zero is passed through to kernel creation entirely unchanged — its whole
definition, max-entries zero included, appears verbatim in the created map
and in the creation event. -/
theorem max_entries_passthrough (env : Env) (m : ObjMap) (mp : Map)
    (evs : List Event)
    (hnot : m.definition.map_type ≠ BPF_MAP_TYPE_PERF_EVENT_ARRAY ∨
            m.definition.max_entries ≠ 0)
    (hok : processMap env m = .ok (mp, evs)) :
    mp.obj = m ∧ mp.obj.definition.max_entries = m.definition.max_entries ∧
    Event.createMap m.name m.definition ∈ evs := by
  obtain ⟨m1, fd, hr, hcr, hmp, hevs⟩ := processMap_ok hok
  rw [resolveMaxEntries_other (by
    intro hand
    rcases hnot with h1 | h2
    · exact h1 hand.1
    · exact h2 hand.2)] at hr
  replace hr := (Except.ok.inj hr).symm
  have hobj : mp.obj = m := by rw [hmp, ← hr]
  refine ⟨hobj, by rw [hobj], ?_⟩
  rw [hevs, ← hr]
  exact List.mem_cons_self _ _

/-- C8 witness: the zero-max-entries hash map is created with its definition
unchanged, max-entries still 0. -/
theorem max_entries_passthrough_witness :
    ({ obj := hashMapW, fd := some 5 } : Map).obj = hashMapW :=
  (max_entries_passthrough envW hashMapW { obj := hashMapW, fd := some 5 }
    [Event.createMap "config" hashMapW.definition,
     Event.updateElem "config" 0 hashMapW.data]
    (Or.inl (by decide)) rfl).1

/-- C3: a created map with non-empty initial data and a name other than
`".bss"` gets exactly one raw element-update event, writing that data at key
0; a map named `".bss"` (or one with empty data) gets no update event; an
update-call failure surfaces as a map error from the per-map step, which
makes the whole load fail. -/
theorem initial_data_update (env : Env) (m : ObjMap) (mp : Map)
    (evs : List Event) :
    (processMap env m = .ok (mp, evs) →
      (mp.obj.data ≠ [] → mp.obj.name ≠ ".bss" →
        evs = [Event.createMap mp.obj.name mp.obj.definition,
               Event.updateElem mp.obj.name 0 mp.obj.data] ∧
        (evs.filter Event.isUpdate).length = 1) ∧
      (mp.obj.name = ".bss" ∨ mp.obj.data = [] →
        evs = [Event.createMap mp.obj.name mp.obj.definition] ∧
        (evs.filter Event.isUpdate).length = 0)) ∧
    (∀ m1 fd code io,
      resolveMaxEntries env.possible_cpus m = .ok m1 →
      env.create m1 = .ok fd →
      m1.data ≠ [] → m1.name ≠ ".bss" →
      env.bpf_map_update_elem_ptr fd 0 m1.data 0 = .error (code, io) →
      processMap env m =
        .error (BpfError.MapError (MapError.UpdateElementError code io))) ∧
    (∀ k obj1 e b tr, (k, m) ∈ obj1.maps → processMap env m = .error e →
      load env (.ok obj1) none ≠ .ok (b, tr)) := by
  refine ⟨?_, ?_, ?_⟩
  · intro hok
    obtain ⟨m1, fd, hr, hcr, hmp, hevs⟩ := processMap_ok hok
    have hobj : mp.obj = m1 := by rw [hmp]
    constructor
    · intro hdata hname
      rw [hobj] at hdata hname
      rw [hevs, if_pos ⟨hdata, hname⟩, hobj]
      exact ⟨rfl, rfl⟩
    · intro hb
      have hcond : ¬(m1.data ≠ [] ∧ m1.name ≠ ".bss") := by
        rw [hobj] at hb
        rcases hb with hb | hb
        · intro hand
          exact hand.2 hb
        · intro hand
          exact hand.1 hb
      rw [hevs, if_neg hcond, hobj]
      exact ⟨rfl, rfl⟩
  · intro m1 fd code io hr hcr hdata hname hu
    simp only [processMap, hr, hcr, if_pos (And.intro hdata hname), hu]
  · intro k obj1 e b tr hmem hfail hok
    simp only [load, btfStage] at hok
    cases hpm : processMaps env obj1.maps with
    | error e2 =>
        rw [hpm] at hok
        exact Except.noConfusion hok
    | ok r =>
        obtain ⟨ms, evs2⟩ := r
        obtain ⟨r2, hr2⟩ := processMaps_ok_mem hpm (k, m) hmem
        rw [hfail] at hr2
        exact Except.noConfusion hr2

/-- C3 witness: the `.bss` map with non-empty data gets no update event,
while the hash map with non-empty data gets exactly one. -/
theorem initial_data_update_witness :
    ([Event.createMap ".bss" bssMapW.definition].filter Event.isUpdate).length = 0 ∧
    ([Event.createMap "config" hashMapW.definition,
      Event.updateElem "config" 0 hashMapW.data].filter Event.isUpdate).length = 1 := by
  constructor
  · exact (((initial_data_update envW bssMapW { obj := bssMapW, fd := some 5 }
      [Event.createMap ".bss" bssMapW.definition]).1 rfl).2
      (Or.inl (by decide))).2
  · exact (((initial_data_update envW hashMapW { obj := hashMapW, fd := some 5 }
      [Event.createMap "config" hashMapW.definition,
       Event.updateElem "config" 0 hashMapW.data]).1 rfl).1
      (by decide) (by decide)).2

/-- C9: program materialization sends `KProbe`/`KRetProbe` classifications to
the one kernel-probe variant and `UProbe`/`URetProbe` to the one user-probe
variant, recording the entry/return distinction only in the `ProbeKind` tag;
`TracePoint`, `SocketFilter` and `Xdp` get their own variants; every wrapper
carries an uninitialized kernel handle and an empty attachment-link list. -/
theorem program_materialization (name : String) (p : ObjProgram) :
    (p.kind = ProgramKind.KProbe → materializeProgram name p =
      Program.KProbe { data := { obj := p, name := name, fd := none, links := [] },
                       kind := ProbeKind.KProbe }) ∧
    (p.kind = ProgramKind.KRetProbe → materializeProgram name p =
      Program.KProbe { data := { obj := p, name := name, fd := none, links := [] },
                       kind := ProbeKind.KRetProbe }) ∧
    (p.kind = ProgramKind.UProbe → materializeProgram name p =
      Program.UProbe { data := { obj := p, name := name, fd := none, links := [] },
                       kind := ProbeKind.UProbe }) ∧
    (p.kind = ProgramKind.URetProbe → materializeProgram name p =
      Program.UProbe { data := { obj := p, name := name, fd := none, links := [] },
                       kind := ProbeKind.URetProbe }) ∧
    (p.kind = ProgramKind.TracePoint → materializeProgram name p =
      Program.TracePoint { data := { obj := p, name := name, fd := none, links := [] } }) ∧
    (p.kind = ProgramKind.SocketFilter → materializeProgram name p =
      Program.SocketFilter { data := { obj := p, name := name, fd := none, links := [] } }) ∧
    (p.kind = ProgramKind.Xdp → materializeProgram name p =
      Program.Xdp { data := { obj := p, name := name, fd := none, links := [] } }) ∧
    (materializeProgram name p).data.fd = none ∧
    (materializeProgram name p).data.links = [] ∧
    (materializeProgram name p).data.name = name ∧
    (materializeProgram name p).data.obj = p := by
  obtain ⟨k, insns⟩ := p
  cases k <;> simp [materializeProgram, Program.data]

/-- C9 witness: a return kernel probe materializes into the kernel-probe
variant, flagged `KRetProbe`, with no fd and no links. -/
theorem program_materialization_witness :
    materializeProgram "kr" { kind := ProgramKind.KRetProbe, insns := [7] } =
      Program.KProbe
        { data := { obj := { kind := ProgramKind.KRetProbe, insns := [7] },
                    name := "kr", fd := none, links := [] },
          kind := ProbeKind.KRetProbe } :=
  (program_materialization "kr" { kind := ProgramKind.KRetProbe, insns := [7] }).2.1 rfl

/-- Successful load decomposes into the five successful stages, the assembled
object, and the trace: the map-stage events followed by the two relocation
passes. -/
theorem load_ok {env : Env} {parsed : Except ParseError Object} {tb : Option Btf}
    {b : Bpf} {tr : List Event} (h : load env parsed tb = .ok (b, tr)) :
    ∃ obj0 obj1 maps evs obj2 obj3,
      parsed = .ok obj0 ∧ btfStage env tb obj0 = .ok obj1 ∧
      processMaps env obj1.maps = .ok (maps, evs) ∧
      env.relocate_maps obj1 maps = .ok obj2 ∧
      env.relocate_calls obj2 = .ok obj3 ∧
      b = assemble maps obj3 ∧
      tr = evs ++ [Event.relocateMaps, Event.relocateCalls] := by
  cases parsed with
  | error e =>
      simp only [load] at h
      exact Except.noConfusion h
  | ok obj0 =>
    cases hb : btfStage env tb obj0 with
    | error e =>
        simp only [load, hb] at h
        exact Except.noConfusion h
    | ok obj1 =>
      cases hpm : processMaps env obj1.maps with
      | error e =>
          simp only [load, hb, hpm] at h
          exact Except.noConfusion h
      | ok r =>
        obtain ⟨maps, evs⟩ := r
        cases hrm : env.relocate_maps obj1 maps with
        | error e =>
            simp only [load, hb, hpm, hrm] at h
            exact Except.noConfusion h
        | ok obj2 =>
          cases hrc : env.relocate_calls obj2 with
          | error e =>
              simp only [load, hb, hpm, hrm, hrc] at h
              exact Except.noConfusion h
          | ok obj3 =>
            simp only [load, hb, hpm, hrm, hrc, Except.ok.injEq, Prod.mk.injEq] at h
            exact ⟨obj0, obj1, maps, evs, obj2, obj3, rfl, hb, hpm, hrm, hrc,
              h.1.symm, h.2.symm⟩

/-- C4: load is all-or-nothing — a failure of any pipeline stage (parsing,
BTF relocation, the map stage including CPU enumeration, creation and
initial-data update, map-reference relocation, call relocation) makes `load`
return the corresponding error, and an error outcome excludes any loaded
object. -/
theorem load_all_or_nothing (env : Env) (parsed : Except ParseError Object)
    (tb : Option Btf) :
    (∀ e, parsed = .error e → load env parsed tb = .error (BpfError.ParseError e)) ∧
    (∀ obj0 btf e, parsed = .ok obj0 → tb = some btf →
      env.relocate_btf obj0 btf = .error e →
      load env parsed tb = .error (BpfError.BtfError e)) ∧
    (∀ obj0 obj1 e, parsed = .ok obj0 → btfStage env tb obj0 = .ok obj1 →
      processMaps env obj1.maps = .error e → load env parsed tb = .error e) ∧
    (∀ obj0 obj1 k m e, parsed = .ok obj0 → btfStage env tb obj0 = .ok obj1 →
      (k, m) ∈ obj1.maps → processMap env m = .error e →
      ∀ b tr, load env parsed tb ≠ .ok (b, tr)) ∧
    (∀ m io, env.possible_cpus = .error io →
      m.definition.map_type = BPF_MAP_TYPE_PERF_EVENT_ARRAY →
      m.definition.max_entries = 0 →
      processMap env m = .error (BpfError.FileError POSSIBLE_CPUS io)) ∧
    (∀ obj0 obj1 maps evs e, parsed = .ok obj0 → btfStage env tb obj0 = .ok obj1 →
      processMaps env obj1.maps = .ok (maps, evs) →
      env.relocate_maps obj1 maps = .error e → load env parsed tb = .error e) ∧
    (∀ obj0 obj1 maps evs obj2 e, parsed = .ok obj0 →
      btfStage env tb obj0 = .ok obj1 →
      processMaps env obj1.maps = .ok (maps, evs) →
      env.relocate_maps obj1 maps = .ok obj2 →
      env.relocate_calls obj2 = .error e → load env parsed tb = .error e) ∧
    (∀ e b tr, load env parsed tb = .error e → load env parsed tb ≠ .ok (b, tr)) := by
  refine ⟨?_, ?_, ?_, ?_, ?_, ?_, ?_, ?_⟩
  · intro e he
    simp only [load, he]
  · intro obj0 btf e hp ht hb
    simp only [load, hp, ht, btfStage, hb]
  · intro obj0 obj1 e hp hb hpm
    simp only [load, hp, hb, hpm]
  · intro obj0 obj1 k m e hp hb hmem hfail b tr hok
    obtain ⟨o0, o1, maps, evs, o2, o3, hp2, hb2, hpm, _, _, _, _⟩ := load_ok hok
    rw [hp] at hp2
    replace hp2 := Except.ok.inj hp2
    rw [← hp2] at hb2
    rw [hb] at hb2
    replace hb2 := Except.ok.inj hb2
    rw [← hb2] at hpm
    obtain ⟨r, hr⟩ := processMaps_ok_mem hpm (k, m) hmem
    rw [hfail] at hr
    exact Except.noConfusion hr
  · intro m io hio hperf hz
    simp only [processMap, resolveMaxEntries, hperf, hz, hio, and_self, if_pos]
  · intro obj0 obj1 maps evs e hp hb hpm hrm
    simp only [load, hp, hb, hpm, hrm]
  · intro obj0 obj1 maps evs obj2 e hp hb hpm hrm hrc
    simp only [load, hp, hb, hpm, hrm, hrc]
  · intro e b tr he hok
    rw [he] at hok
    exact Except.noConfusion hok

/-- C4 witness: a parse failure makes the whole load fail with the parse
error. -/
theorem load_all_or_nothing_witness :
    load envW (.error { code := 3 }) none = .error (BpfError.ParseError { code := 3 }) :=
  (load_all_or_nothing envW (.error { code := 3 }) none).1 { code := 3 } rfl

/-- The created maps of a successful map stage carry, in order, exactly the
names of the processed map definitions. -/
theorem processMaps_names {env : Env} :
    ∀ {l : List (String × ObjMap)} {ms : List Map} {evs : List Event},
      processMaps env l = .ok (ms, evs) →
      ms.map (fun mp => mp.obj.name) = l.map (fun p => p.2.name)
  | [], ms, evs, h => by
      simp only [processMaps, Except.ok.injEq, Prod.mk.injEq] at h
      rw [← h.1]
      rfl
  | (k, m) :: rest, ms, evs, h => by
      cases hm : processMap env m with
      | error e =>
          simp only [processMaps, hm] at h
          exact Except.noConfusion h
      | ok r =>
        obtain ⟨mp, ev⟩ := r
        cases hrest : processMaps env rest with
        | error e =>
            simp only [processMaps, hm, hrest] at h
            exact Except.noConfusion h
        | ok r2 =>
          obtain ⟨ms2, evs2⟩ := r2
          simp only [processMaps, hm, hrest, Except.ok.injEq, Prod.mk.injEq] at h
          obtain ⟨m1, fd, hr, _, hmp, _⟩ := processMap_ok hm
          have hname : m1.name = m.name := (resolveMaxEntries_preserves hr).1
          have ih := processMaps_names hrest
          rw [← h.1]
          simp only [List.map_cons, hmp, ih, hname]

/-- An association list finds every key it contains. -/
theorem assocFind_isSome_of_mem {β : Type} :
    ∀ {l : List (String × β)} {k : String}, k ∈ l.map Prod.fst →
      (assocFind l k).isSome
  | [], k, h => absurd h (by simp)
  | (k2, v) :: rest, k, h => by
      by_cases hk : k2 = k
      · simp [assocFind, hk]
      · have hmem : k ∈ rest.map Prod.fst := by
          simp only [List.map_cons, List.mem_cons] at h
          rcases h with h | h
          · exact absurd h.symm hk
          · exact h
        have := assocFind_isSome_of_mem (l := rest) hmem
        simpa [assocFind, hk] using this

/-- C5: a successful load of a parsed object with uniquely named maps and
programs yields a loaded object with exactly as many map entries and program
entries, keyed by the original names, each retrievable by its original name.
The relocation collaborators rewrite instructions in place (per §6) and so
preserve the program name set; that framing is taken as a hypothesis. -/
theorem load_round_trip (env : Env) (obj0 : Object) (tb : Option Btf)
    (b : Bpf) (tr : List Event)
    (hmapsU : (obj0.maps.map (fun p => p.2.name)).Nodup)
    (hprogsU : (obj0.programs.map Prod.fst).Nodup)
    (hbtf : ∀ o btf o2, env.relocate_btf o btf = .ok o2 →
      o2.maps = o.maps ∧ o2.programs.map Prod.fst = o.programs.map Prod.fst)
    (hrm : ∀ o ms o2, env.relocate_maps o ms = .ok o2 →
      o2.programs.map Prod.fst = o.programs.map Prod.fst)
    (hrc : ∀ o o2, env.relocate_calls o = .ok o2 →
      o2.programs.map Prod.fst = o.programs.map Prod.fst)
    (hok : load env (.ok obj0) tb = .ok (b, tr)) :
    b.maps.length = obj0.maps.length ∧
    b.programs.length = obj0.programs.length ∧
    b.maps.map Prod.fst = obj0.maps.map (fun p => p.2.name) ∧
    b.programs.map Prod.fst = obj0.programs.map Prod.fst ∧
    (∀ p ∈ obj0.maps, (assocFind b.maps p.2.name).isSome) ∧
    (∀ p ∈ obj0.programs, (assocFind b.programs p.1).isSome) := by
  obtain ⟨o0, obj1, maps, evs, obj2, obj3, hp, hb1, hpm, hrm2, hrc2, hbe, htr⟩ :=
    load_ok hok
  cases Except.ok.inj hp
  have hb : obj1.maps = obj0.maps ∧
      obj1.programs.map Prod.fst = obj0.programs.map Prod.fst := by
    cases tb with
    | none =>
        simp only [btfStage] at hb1
        cases Except.ok.inj hb1
        exact ⟨rfl, rfl⟩
    | some btf =>
        cases hrb : env.relocate_btf obj0 btf with
        | error e =>
            simp only [btfStage, hrb] at hb1
            exact Except.noConfusion hb1
        | ok o2 =>
            simp only [btfStage, hrb] at hb1
            cases Except.ok.inj hb1
            exact hbtf obj0 btf obj1 hrb
  have hcompm : (Prod.fst ∘ fun mp : Map => (mp.obj.name, MapLock.new mp)) =
      fun mp : Map => mp.obj.name := by
    funext mp
    rfl
  have hcompp : (Prod.fst ∘ fun p : String × ObjProgram =>
      (p.1, materializeProgram p.1 p.2)) = Prod.fst := by
    funext p
    rfl
  have hmk : b.maps.map Prod.fst = obj0.maps.map (fun p => p.2.name) := by
    rw [hbe]
    simp only [assemble, List.map_map, hcompm]
    rw [processMaps_names hpm, hb.1]
  have hpk : b.programs.map Prod.fst = obj0.programs.map Prod.fst := by
    rw [hbe]
    simp only [assemble, List.map_map, hcompp]
    rw [hrc obj2 obj3 hrc2, hrm obj1 maps obj2 hrm2, hb.2]
  have hlen1 : b.maps.length = obj0.maps.length := by
    have := congrArg List.length hmk
    simpa using this
  have hlen2 : b.programs.length = obj0.programs.length := by
    have := congrArg List.length hpk
    simpa using this
  refine ⟨hlen1, hlen2, hmk, hpk, ?_, ?_⟩
  · intro p hpmem
    apply assocFind_isSome_of_mem
    rw [hmk]
    exact List.mem_map_of_mem _ hpmem
  · intro p hpmem
    apply assocFind_isSome_of_mem
    rw [hpk]
    exact List.mem_map_of_mem _ hpmem

/-- C5 witness: the one-map, one-program object loads into a loaded object
with one map entry and one program entry, each under its original name. -/
theorem load_round_trip_witness :
    bpfLoadedW.maps.length = objW.maps.length ∧
    bpfLoadedW.programs.length = objW.programs.length ∧
    (assocFind bpfLoadedW.maps "events").isSome ∧
    (assocFind bpfLoadedW.programs "prog").isSome := by
  have h := load_round_trip envW objW none bpfLoadedW loadTraceW
    (by decide) (by decide)
    (fun o btf o2 h => by cases Except.ok.inj h; exact ⟨rfl, rfl⟩)
    (fun o ms o2 h => by cases Except.ok.inj h; rfl)
    (fun o o2 h => by cases Except.ok.inj h; rfl)
    rfl
  exact ⟨h.1, h.2.1,
    h.2.2.2.2.1 ("events", perfMapW) (List.mem_singleton.mpr rfl),
    h.2.2.2.2.2 ("prog", progW) (List.mem_singleton.mpr rfl)⟩

/-- The events of a successful map stage are only creations and updates, and
every processed map definition has a creation event among them. -/
theorem processMaps_events {env : Env} :
    ∀ {l : List (String × ObjMap)} {ms : List Map} {evs : List Event},
      processMaps env l = .ok (ms, evs) →
      (∀ e ∈ evs, Event.isCreate e = true ∨ Event.isUpdate e = true) ∧
      (∀ p ∈ l, ∃ d, Event.createMap p.2.name d ∈ evs)
  | [], ms, evs, h => by
      simp only [processMaps, Except.ok.injEq, Prod.mk.injEq] at h
      rw [← h.2]
      exact ⟨by simp, by simp⟩
  | (k, m) :: rest, ms, evs, h => by
      cases hm : processMap env m with
      | error e =>
          simp only [processMaps, hm] at h
          exact Except.noConfusion h
      | ok r =>
        obtain ⟨mp, ev⟩ := r
        cases hrest : processMaps env rest with
        | error e =>
            simp only [processMaps, hm, hrest] at h
            exact Except.noConfusion h
        | ok r2 =>
          obtain ⟨ms2, evs2⟩ := r2
          simp only [processMaps, hm, hrest, Except.ok.injEq, Prod.mk.injEq] at h
          obtain ⟨ih1, ih2⟩ := processMaps_events hrest
          obtain ⟨m1, fd, hr, _, _, hevs⟩ := processMap_ok hm
          have hname : m1.name = m.name := (resolveMaxEntries_preserves hr).1
          rw [← h.2]
          constructor
          · intro e he
            rcases List.mem_append.mp he with he | he
            · rw [hevs] at he
              rcases List.mem_cons.mp he with he | he
              · rw [he]
                exact Or.inl rfl
              · split at he
                · rw [List.mem_singleton.mp he]
                  exact Or.inr rfl
                · exact absurd he (List.not_mem_nil e)
            · exact ih1 e he
          · intro p hp
            rcases List.mem_cons.mp hp with hp | hp
            · refine ⟨m1.definition, List.mem_append_left _ ?_⟩
              rw [hevs, hp]
              simp [hname]
            · obtain ⟨d, hd⟩ := ih2 p hp
              exact ⟨d, List.mem_append_right _ hd⟩

/-- C6: on any successful load, the trace is the map-stage events (creations
and updates only) followed by exactly one map-reference relocation pass and
exactly one call relocation pass; in particular every map's kernel creation
strictly precedes map-reference relocation, and neither relocation pass runs
twice. -/
theorem relocation_after_creation (env : Env) (parsed : Except ParseError Object)
    (tb : Option Btf) (b : Bpf) (tr : List Event)
    (hok : load env parsed tb = .ok (b, tr)) :
    ∃ evs, tr = evs ++ [Event.relocateMaps, Event.relocateCalls] ∧
      (∀ e ∈ evs, Event.isCreate e = true ∨ Event.isUpdate e = true) ∧
      tr.count Event.relocateMaps = 1 ∧
      tr.count Event.relocateCalls = 1 ∧
      (∀ obj0 obj1, parsed = .ok obj0 → btfStage env tb obj0 = .ok obj1 →
        ∀ p ∈ obj1.maps, ∃ d, Event.createMap p.2.name d ∈ evs) := by
  obtain ⟨obj0, obj1, maps, evs, obj2, obj3, hp, hb1, hpm, hrm, hrc, hbe, htr⟩ :=
    load_ok hok
  obtain ⟨hev, hcr⟩ := processMaps_events hpm
  have hnotrm : evs.count Event.relocateMaps = 0 := by
    rw [List.count_eq_zero]
    intro hmem
    rcases hev _ hmem with h | h <;> simp [Event.isCreate, Event.isUpdate] at h
  have hnotrc : evs.count Event.relocateCalls = 0 := by
    rw [List.count_eq_zero]
    intro hmem
    rcases hev _ hmem with h | h <;> simp [Event.isCreate, Event.isUpdate] at h
  refine ⟨evs, htr, hev, ?_, ?_, ?_⟩
  · rw [htr, List.count_append, hnotrm]
    decide
  · rw [htr, List.count_append, hnotrc]
    decide
  · intro o0 o1 hp2 hb2 p hpmem
    rw [hp] at hp2
    cases Except.ok.inj hp2
    rw [hb1] at hb2
    cases Except.ok.inj hb2
    exact hcr p hpmem

/-- C6 witness: the concrete load's trace performs each relocation pass
exactly once, after the creation events. -/
theorem relocation_after_creation_witness :
    loadTraceW.count Event.relocateMaps = 1 ∧
    loadTraceW.count Event.relocateCalls = 1 := by
  obtain ⟨evs, htr, hcu, h1, h2, hmem⟩ :=
    relocation_after_creation envW (.ok objW) none bpfLoadedW loadTraceW rfl
  exact ⟨h1, h2⟩

end Aya
